import Mathlib

/-!
Verification of the tremor-detection pipeline of
Manan1511/Neurological-Condition-Detection against its specification.

The Python sources are shallow-embedded over ℚ.  Irrational numeric
kernels of the source (numpy sqrt, the FFT modulus, librosa transforms,
log10) are abstracted as explicit function parameters; every piece of
control flow, indexing, masking, windowing and thresholding logic is
translated directly from the code.  Python exceptions that the source
raises or swallows are modelled with Option / Except results.
-/

namespace NeuroDetect

/-! ### Constants (live_detector.py / train_model.py / api/server.py) -/

def WINDOW_SIZE : ℕ := 100

def STEP_SIZE : ℕ := 50

def SAMPLING_RATE : ℚ := 50

/-! ### Generic numpy-style list helpers -/

/-- np.mean.  On the empty list the source produces NaN (never consumed on
any path modelled here); in ℚ the division by zero yields 0. -/
def listMean (l : List ℚ) : ℚ := l.sum / l.length

/-- np.diff: consecutive differences x[1:] - x[:-1]. -/
def np_diff (l : List ℚ) : List ℚ := List.zipWith (fun a b => a - b) l.tail l

/-- np.max on a list (0 on the empty list, which numpy would reject). -/
def list_max : List ℚ → ℚ
  | [] => 0
  | [x] => x
  | x :: y :: xs => max x (list_max (y :: xs))

/-- np.argmax: index of the first occurrence of the maximum value. -/
def argmax_first (l : List ℚ) : ℕ := l.findIdx (fun x => decide (list_max l ≤ x))

theorem le_list_max {l : List ℚ} {x : ℚ} (hx : x ∈ l) : x ≤ list_max l := by
  induction l with
  | nil => cases hx
  | cons a t ih =>
    cases t with
    | nil => simp at hx; simp [list_max, hx]
    | cons b u =>
      rcases List.mem_cons.mp hx with h | h
      · simp [list_max, h, le_max_iff]
      · exact le_trans (ih h) (by simp [list_max])

theorem list_max_mem {l : List ℚ} (h : l ≠ []) : list_max l ∈ l := by
  induction l with
  | nil => exact absurd rfl h
  | cons a t ih =>
    cases t with
    | nil => simp [list_max]
    | cons b u =>
      rcases le_total a (list_max (b :: u)) with hle | hle
      · have := ih (by simp)
        simp only [list_max, max_eq_right hle]
        exact List.mem_cons_of_mem a this
      · simp [list_max, max_eq_left hle]

theorem argmax_first_lt_length {l : List ℚ} (h : l ≠ []) :
    argmax_first l < l.length := by
  refine List.findIdx_lt_length_of_exists ⟨list_max l, list_max_mem h, ?_⟩
  simp

theorem argmax_first_attains {l : List ℚ} (h : l ≠ []) :
    l.getD (argmax_first l) 0 = list_max l := by
  have hlt : argmax_first l < l.length := argmax_first_lt_length h
  have h1 : decide (list_max l ≤ l[argmax_first l]) = true :=
    List.findIdx_getElem (w := hlt)
  have h2 : l[argmax_first l] ≤ list_max l :=
    le_list_max (List.getElem_mem hlt)
  have h3 := of_decide_eq_true h1
  have hget : l.getD (argmax_first l) 0 = l[argmax_first l] := by
    simp [List.getD_eq_getElem?_getD, List.getElem?_eq_getElem hlt]
  rw [hget]
  exact le_antisymm h2 h3

theorem lt_argmax_first_strict {l : List ℚ} {j : ℕ} (hj : j < argmax_first l)
    (hlen : j < l.length) : l.getD j 0 < list_max l := by
  have h1 : decide (list_max l ≤ l[j]) = false :=
    List.not_of_lt_findIdx hj
  have h2 : ¬ list_max l ≤ l[j] := of_decide_eq_false h1
  have hget : l.getD j 0 = l[j] := by
    simp [List.getD_eq_getElem?_getD, List.getElem?_eq_getElem hlen]
  rw [hget]
  exact lt_of_not_ge h2

/-! ### Motion rows and abstract numeric kernels -/

/-- One parsed motion sample (the channels the extractors consume). -/
structure MRow where
  AccelX : ℚ
  AccelY : ℚ
  AccelZ : ℚ
  FSR : ℚ
deriving DecidableEq, Repr

/-- The irrational numeric kernels used by the motion extractors:
np.sqrt, and the pointwise modulus of the scipy FFT
(`fun signal => (fft signal).map Complex.abs`).  Abstracted because their
values are irrational; every claim below is parametric in them. -/
structure NumKernels where
  sqrt : ℚ → ℚ
  fftAbs : List ℚ → List ℚ

/-- np.sqrt(AccelX**2 + AccelY**2 + AccelZ**2), per row. -/
def acc_mag_raw (K : NumKernels) (rows : List MRow) : List ℚ :=
  rows.map (fun r => K.sqrt (r.AccelX ^ 2 + r.AccelY ^ 2 + r.AccelZ ^ 2))

/-- acc_mag - np.mean(acc_mag). -/
def detrend (l : List ℚ) : List ℚ := l.map (fun x => x - listMean l)

/-- np.std: sqrt of the mean squared deviation (population std). -/
def listStd (K : NumKernels) (l : List ℚ) : ℚ :=
  K.sqrt (listMean (l.map (fun x => (x - listMean l) ^ 2)))

/-- xf[:N//2] for xf = fftfreq(N, 1/SAMPLING_RATE): the one-sided
frequency bins k * SAMPLING_RATE / N for k < N/2. -/
def positive_freqs (N : ℕ) : List ℚ :=
  (List.range (N / 2)).map (fun k : ℕ => (k : ℚ) * SAMPLING_RATE / (N : ℚ))

/-- positive_mags = 2.0/N * np.abs(yf[0:N//2]). -/
def positive_mags (K : NumKernels) (N : ℕ) (signal : List ℚ) : List ℚ :=
  ((K.fftAbs signal).take (N / 2)).map (fun v => 2 / (N : ℚ) * v)

/-- positive_freqs[np.argmax(positive_mags)]. -/
def dom_freq_val (freqs mags : List ℚ) : ℚ := freqs.getD (argmax_first mags) 0

/-- np.sum(vals[mask]) for a boolean mask aligned with vals. -/
def masked_sum (mask : List Bool) (vals : List ℚ) : ℚ :=
  (((mask.zip vals).filter (fun p => p.1)).map (fun p => p.2)).sum

/-- tremor_band_mask = (positive_freqs >= 3.5) & (positive_freqs <= 7.5);
tremor_energy = np.sum(positive_mags[tremor_band_mask]). -/
def tremor_energy (freqs mags : List ℚ) : ℚ :=
  masked_sum (freqs.map (fun f => decide ((3.5 : ℚ) ≤ f) && decide (f ≤ (7.5 : ℚ)))) mags

/-- voluntary_band_mask = (positive_freqs > 0.1) & (positive_freqs < 3.0). -/
def voluntary_energy (freqs mags : List ℚ) : ℚ :=
  masked_sum (freqs.map (fun f => decide ((0.1 : ℚ) < f) && decide (f < (3.0 : ℚ)))) mags

/-- Spec wording for C2: the sum of one-sided amplitudes at bins whose
frequency lies in [3.5, 7.5] Hz inclusive. -/
def tremorEnergyClaim (freqs mags : List ℚ) : ℚ :=
  (((freqs.zip mags).filter
      (fun p => decide ((3.5 : ℚ) ≤ p.1 ∧ p.1 ≤ (7.5 : ℚ)))).map (fun p => p.2)).sum

/-- Spec wording for C2: the sum of amplitudes at bins whose frequency
lies in the open-strict band (0.1, 3.0) Hz. -/
def voluntaryEnergyClaim (freqs mags : List ℚ) : ℚ :=
  (((freqs.zip mags).filter
      (fun p => decide ((0.1 : ℚ) < p.1 ∧ p.1 < (3.0 : ℚ)))).map (fun p => p.2)).sum

/-! ### The motion feature extractors (three near-duplicated variants) -/

/-- get_features of api/server.py.  Full frames return the 6-list
[dom_freq, tremor_energy, voluntary_energy, acc_std, fsr_mean, fsr_std];
a zero-length frame returns six zeros (explicit guard in the source);
a missing FSR column is replaced by zeros. -/
def get_features_api (K : NumKernels) (hasFSR : Bool) (rows : List MRow) : List ℚ :=
  let acc_mag := detrend (acc_mag_raw K rows)
  let fsr_signal := if hasFSR then rows.map MRow.FSR else List.replicate acc_mag.length 0
  let N := acc_mag.length
  if N = 0 then List.replicate 6 0 else
  let mags := positive_mags K N acc_mag
  let freqs := positive_freqs N
  let dom_freq := if 0 < mags.length then dom_freq_val freqs mags else 0
  [dom_freq, tremor_energy freqs mags, voluntary_energy freqs mags,
   listStd K acc_mag, listMean fsr_signal, listStd K fsr_signal]

/-- get_features of live_detector.py.  No zero-length guard: scipy fft
raises ValueError on an empty series and np.argmax raises on an empty
one-sided spectrum; both exits are modelled as none. -/
def get_features_live (K : NumKernels) (rows : List MRow) : Option (List ℚ) :=
  let acc_mag := detrend (acc_mag_raw K rows)
  let fsr_signal := rows.map MRow.FSR
  let N := acc_mag.length
  if N = 0 then none else
  let mags := positive_mags K N acc_mag
  if mags.length = 0 then none else
  let freqs := positive_freqs N
  some [dom_freq_val freqs mags, tremor_energy freqs mags, voluntary_energy freqs mags,
        listStd K acc_mag, listMean fsr_signal, listStd K fsr_signal]

/-- get_features_from_window of tremor detection/train_model.py: the same
body as the live variant; the returned dict is read out in insertion
order (list(features.values())) by train(). -/
def get_features_from_window (K : NumKernels) (rows : List MRow) : Option (List ℚ) :=
  let acc_mag := detrend (acc_mag_raw K rows)
  let fsr_signal := rows.map MRow.FSR
  let N := acc_mag.length
  if N = 0 then none else
  let mags := positive_mags K N acc_mag
  if mags.length = 0 then none else
  let freqs := positive_freqs N
  some [dom_freq_val freqs mags, tremor_energy freqs mags, voluntary_energy freqs mags,
        listStd K acc_mag, listMean fsr_signal, listStd K fsr_signal]

/-! ### The decision gates (two call sites, two thresholds) -/

/-- The logic gate of api/server.py predict (lines 99-110):
a class-1 prediction with measured frequency above 7.0 or below 3.0 Hz
is overridden to class 2. -/
def logic_gate_api (prediction : ℤ) (real_freq : ℚ) : ℤ :=
  if prediction = 1 then
    if real_freq > 7 then 2
    else if real_freq < 3 then 2
    else prediction
  else prediction

/-- The logic gate of live_detector.py run_live_detection (lines 125-132):
a class-1 prediction with measured frequency below 3.5 or above 7.5 Hz
is overridden to class 2. -/
def logic_gate_live (prediction : ℤ) (real_freq : ℚ) : ℤ :=
  if prediction = 1 then
    if real_freq < (3.5 : ℚ) ∨ real_freq > (7.5 : ℚ) then 2 else prediction
  else prediction

/-- Claim C1: decision gate override.  For every classifier prediction p
and measured dominant frequency f: in the offline/API pipeline, p = 1
with f outside [3.0, 7.0] Hz is gated to class 2; in the live pipeline,
p = 1 with f outside [3.5, 7.5] Hz is gated to class 2; and at the
concrete measured dom_freq 2.0 Hz a class-1 prediction is gated to
class 2 under both threshold variants. -/
theorem gate_override_correct (p : ℤ) (f : ℚ) :
    (p = 1 → (f < 3 ∨ 7 < f) → logic_gate_api p f = 2) ∧
    (p = 1 → (f < (3.5 : ℚ) ∨ (7.5 : ℚ) < f) → logic_gate_live p f = 2) ∧
    logic_gate_api 1 2 = 2 ∧ logic_gate_live 1 2 = 2 := by
  refine ⟨?_, ?_, by norm_num [logic_gate_api], by norm_num [logic_gate_live]⟩
  · rintro rfl (h | h) <;> simp [logic_gate_api] <;> intro h2 <;> linarith
  · rintro rfl h
    simp [logic_gate_live, h]

/-- Witness for C1 at p = 1, f = 2.0 Hz. -/
theorem gate_override_correct_w :
    logic_gate_api 1 2 = 2 ∧ logic_gate_live 1 2 = 2 := by
  refine ⟨(gate_override_correct 1 2).1 rfl ?_, (gate_override_correct 1 2).2.1 rfl ?_⟩
  · left; norm_num
  · left; norm_num

/-- Claim C10: implicit gate identity.  Both gate variants leave every
prediction other than 1 unchanged, map a class-1 prediction to 1 or 2,
and can only output class 0 when the prediction already was class 0;
they read nothing besides the prediction and the measured dom_freq. -/
theorem gate_identity (p : ℤ) (f : ℚ) :
    (p ≠ 1 → logic_gate_api p f = p ∧ logic_gate_live p f = p) ∧
    (logic_gate_api 1 f = 1 ∨ logic_gate_api 1 f = 2) ∧
    (logic_gate_live 1 f = 1 ∨ logic_gate_live 1 f = 2) ∧
    (logic_gate_api p f = 0 → p = 0) ∧
    (logic_gate_live p f = 0 → p = 0) := by
  unfold logic_gate_api logic_gate_live
  refine ⟨fun hp => by simp [hp], ?_, ?_, ?_, ?_⟩ <;> split_ifs <;> simp_all

/-- Witness for C10 at p = 0, f = 5 (and the unconditional parts at p = 1). -/
theorem gate_identity_w :
    logic_gate_api 0 5 = 0 ∧ logic_gate_live 0 5 = 0 := by
  have h := (gate_identity 0 5).1 (by decide)
  exact h

theorem positive_freqs_getD {N i : ℕ} (h : i < N / 2) :
    (positive_freqs N).getD i 0 = (i : ℚ) * SAMPLING_RATE / N := by
  have hlen : i < (positive_freqs N).length := by
    rw [positive_freqs, List.length_map, List.length_range]; exact h
  rw [List.getD_eq_getElem _ _ hlen]
  simp only [positive_freqs, List.getElem_map, List.getElem_range]

theorem freq_bin_bound {N k : ℕ} (hN2 : 0 < N / 2) (hk : k < N / 2) :
    0 ≤ (k : ℚ) * SAMPLING_RATE / N ∧ (k : ℚ) * SAMPLING_RATE / N < 25 := by
  have hN : 0 < N := by omega
  have h2k : 2 * k < N := by omega
  have hNQ : (0 : ℚ) < N := by exact_mod_cast hN
  have h2kQ : (2 * k : ℚ) < N := by exact_mod_cast h2k
  constructor
  · rw [SAMPLING_RATE]; positivity
  · rw [SAMPLING_RATE, div_lt_iff₀ hNQ]
    push_cast at h2kQ ⊢
    linarith

/-- Claim C3: for every non-empty one-sided spectrum, dom_freq is the
frequency of the first bin attaining the maximum amplitude (index 0
counts; ties go to the lowest-index, hence lowest-frequency, bin), and
for every frame the resulting dom_freq lies in [0, SAMPLING_RATE/2) =
[0, 25) Hz.  The spectrum length is N/2 as produced by the extractors. -/
theorem dom_freq_argmax (mags : List ℚ) (N : ℕ)
    (hne : mags ≠ []) (hlen : mags.length = N / 2) :
    argmax_first mags < mags.length ∧
    (∀ j, j < mags.length → mags.getD j 0 ≤ mags.getD (argmax_first mags) 0) ∧
    (∀ j, j < argmax_first mags → mags.getD j 0 < mags.getD (argmax_first mags) 0) ∧
    dom_freq_val (positive_freqs N) mags = (argmax_first mags : ℚ) * SAMPLING_RATE / N ∧
    0 ≤ dom_freq_val (positive_freqs N) mags ∧
    dom_freq_val (positive_freqs N) mags < 25 := by
  have hlt : argmax_first mags < mags.length := argmax_first_lt_length hne
  have hattain : mags.getD (argmax_first mags) 0 = list_max mags := argmax_first_attains hne
  have hN2 : 0 < N / 2 := hlen ▸ (List.length_pos.mpr hne)
  have hfreq : dom_freq_val (positive_freqs N) mags
      = (argmax_first mags : ℚ) * SAMPLING_RATE / N := by
    rw [dom_freq_val, positive_freqs_getD (hlen ▸ hlt)]
  have hbound := freq_bin_bound hN2 (hlen ▸ hlt)
  refine ⟨hlt, ?_, ?_, hfreq, by rw [hfreq]; exact hbound.1, by rw [hfreq]; exact hbound.2⟩
  · intro j hj
    rw [hattain]
    have : mags.getD j 0 = mags[j] := by
      simp [List.getD_eq_getElem?_getD, List.getElem?_eq_getElem hj]
    rw [this]
    exact le_list_max (List.getElem_mem hj)
  · intro j hj
    rw [hattain]
    exact lt_argmax_first_strict hj (lt_trans hj hlt)

/-- Witness for C3: the spectrum [1, 3, 2, 3] with N = 8 (argmax index 1,
a tie at index 3 broken to the lower index). -/
theorem dom_freq_argmax_w :
    argmax_first [(1 : ℚ), 3, 2, 3] < ([(1 : ℚ), 3, 2, 3]).length ∧
    0 ≤ dom_freq_val (positive_freqs 8) [(1 : ℚ), 3, 2, 3] ∧
    dom_freq_val (positive_freqs 8) [(1 : ℚ), 3, 2, 3] < 25 := by
  have h := dom_freq_argmax [(1 : ℚ), 3, 2, 3] 8 (by decide) (by decide)
  exact ⟨h.1, h.2.2.2.2.1, h.2.2.2.2.2⟩

/-! ### Named feature components (for the C2 ordering contract) -/

def acc_mag_detrended (K : NumKernels) (rows : List MRow) : List ℚ :=
  detrend (acc_mag_raw K rows)

def motion_mags (K : NumKernels) (rows : List MRow) : List ℚ :=
  positive_mags K (acc_mag_detrended K rows).length (acc_mag_detrended K rows)

def dom_freq_feat (K : NumKernels) (rows : List MRow) : ℚ :=
  dom_freq_val (positive_freqs (acc_mag_detrended K rows).length) (motion_mags K rows)

def tremor_feat (K : NumKernels) (rows : List MRow) : ℚ :=
  tremor_energy (positive_freqs (acc_mag_detrended K rows).length) (motion_mags K rows)

def voluntary_feat (K : NumKernels) (rows : List MRow) : ℚ :=
  voluntary_energy (positive_freqs (acc_mag_detrended K rows).length) (motion_mags K rows)

def acc_std_feat (K : NumKernels) (rows : List MRow) : ℚ :=
  listStd K (acc_mag_detrended K rows)

def fsr_mean_feat (rows : List MRow) : ℚ := listMean (rows.map MRow.FSR)

def fsr_std_feat (K : NumKernels) (rows : List MRow) : ℚ :=
  listStd K (rows.map MRow.FSR)

theorem masked_sum_map (p : ℚ → Bool) (fs vs : List ℚ) :
    masked_sum (fs.map p) vs =
      (((fs.zip vs).filter (fun q => p q.1)).map (fun q => q.2)).sum := by
  induction fs generalizing vs with
  | nil => simp [masked_sum]
  | cons f ft ih =>
    cases vs with
    | nil => simp [masked_sum]
    | cons v vt =>
      by_cases hp : p f <;>
        simp [masked_sum, hp, List.filter_cons] <;>
        simpa [masked_sum] using ih vt

/-- Concrete abstract kernels used for witnesses and counterexamples:
square root and FFT modulus both replaced by the identity. -/
def K0 : NumKernels := ⟨fun x => x, fun l => l⟩

def rows0 : List MRow := [⟨1, 0, 0, 5⟩, ⟨1, 0, 0, 5⟩]

/-- Claim C2: the motion feature extractor returns the ordered 6-tuple
(dom_freq, tremor_energy, voluntary_energy, acc_std, fsr_mean, fsr_std),
identically ordered in the training, live and API variants; and the two
band energies are exactly the spec sums: amplitudes over bins with
frequency in [3.5, 7.5] inclusive (tremor) and in the strict band
(0.1, 3.0) (voluntary). -/
theorem feature_vector_contract (K : NumKernels) (rows : List MRow) :
    (get_features_from_window K rows = get_features_live K rows) ∧
    (∀ l, get_features_live K rows = some l → get_features_api K true rows = l) ∧
    (∀ freqs mags : List ℚ,
        tremor_energy freqs mags = tremorEnergyClaim freqs mags ∧
        voluntary_energy freqs mags = voluntaryEnergyClaim freqs mags) ∧
    (∀ l, get_features_live K rows = some l →
        l = [dom_freq_feat K rows, tremor_feat K rows, voluntary_feat K rows,
             acc_std_feat K rows, fsr_mean_feat rows, fsr_std_feat K rows]) := by
  have hbands : ∀ freqs mags : List ℚ,
      tremor_energy freqs mags = tremorEnergyClaim freqs mags ∧
      voluntary_energy freqs mags = voluntaryEnergyClaim freqs mags := by
    intro freqs mags
    constructor
    · rw [tremor_energy, masked_sum_map, tremorEnergyClaim]
      congr 2
      apply List.filter_congr
      intro x _
      simp
    · rw [voluntary_energy, masked_sum_map, voluntaryEnergyClaim]
      congr 2
      apply List.filter_congr
      intro x _
      simp
  have key : ∀ l, get_features_live K rows = some l →
      get_features_api K true rows = l ∧
      l = [dom_freq_feat K rows, tremor_feat K rows, voluntary_feat K rows,
           acc_std_feat K rows, fsr_mean_feat rows, fsr_std_feat K rows] := by
    intro l hl
    simp only [get_features_live] at hl
    by_cases h1 : (detrend (acc_mag_raw K rows)).length = 0
    · rw [if_pos h1] at hl
      exact Option.noConfusion hl
    rw [if_neg h1] at hl
    by_cases h2 : (positive_mags K (detrend (acc_mag_raw K rows)).length
        (detrend (acc_mag_raw K rows))).length = 0
    · rw [if_pos h2] at hl
      exact Option.noConfusion hl
    rw [if_neg h2, Option.some.injEq] at hl
    subst hl
    constructor
    · simp [get_features_api, h1, Nat.pos_of_ne_zero h2]
    · rfl
  exact ⟨rfl, fun l hl => (key l hl).1, hbands, fun l hl => (key l hl).2⟩

/-- Witness for C2 at the concrete kernels K0 and the 2-sample frame
rows0, for which the live extractor succeeds. -/
theorem feature_vector_contract_w :
    get_features_api K0 true rows0 = [0, 0, 0, 0, 5, 0] := by
  refine (feature_vector_contract K0 rows0).2.1 [0, 0, 0, 0, 5, 0] ?_
  norm_num [get_features_live, K0, rows0, acc_mag_raw, detrend, listMean, listStd,
    positive_mags, positive_freqs, dom_freq_val, argmax_first, list_max,
    tremor_energy, voluntary_energy, masked_sum, List.findIdx, List.findIdx.go,
    List.range_succ, List.range_zero, Function.comp, SAMPLING_RATE, List.getD]

/-- Claim C7 counterexample: the claim asserts that a zero-length frame
yields the all-zero 6-vector in every extractor variant, but the live
variant has no zero-length guard: on the empty frame scipy fft (and
np.argmax) raise, modelled as none, so no six-zero vector is returned. -/
theorem degenerate_frame_cx :
    get_features_live K0 [] = none ∧
    get_features_live K0 [] ≠ some [0, 0, 0, 0, 0, 0] := by
  exact ⟨rfl, by decide⟩

/-- Claim C7 (amended): a zero-length frame returns the all-zero
6-feature vector in the offline/API variant (explicit guard), while the
live variant, which lacks the guard, fails on the empty frame instead of
returning a vector. -/
theorem degenerate_frame_amended (K : NumKernels) (hasFSR : Bool) :
    get_features_api K hasFSR [] = [0, 0, 0, 0, 0, 0] ∧
    get_features_live K [] = none := by
  exact ⟨rfl, rfl⟩

/-! ### Batch windowing (tremor detection/train_model.py, train) -/

/-- Python range(0, stop, step) for step > 0, where stop may be the
negative integer len(df) - WINDOW_SIZE: the produced start indices are
0, step, 2*step, ... while strictly below stop. -/
def pyRangeStep (stop : ℤ) (step : ℕ) : List ℕ :=
  (List.range ((stop.toNat + step - 1) / step)).map (fun i => i * step)

/-- The start indices iterated by train():
for start in range(0, len(df) - WINDOW_SIZE, STEP_SIZE). -/
def train_starts (L : ℕ) : List ℕ := pyRangeStep ((L : ℤ) - WINDOW_SIZE) STEP_SIZE

/-- df.iloc[start : start + WINDOW_SIZE]. -/
def window_slice (rows : List α) (start : ℕ) : List α :=
  (rows.drop start).take WINDOW_SIZE

/-- The labelled windows that survive train()'s label-purity filter:
windows whose rows carry more than one distinct label are skipped
(len(window['Label'].unique()) > 1 → continue) before extraction. -/
def train_windows (rows : List (MRow × ℤ)) : List (ℕ × List (MRow × ℤ)) :=
  ((train_starts rows.length).map (fun s => (s, window_slice rows s))).filter
    (fun p => decide ((p.2.map (fun r => r.2)).dedup.length ≤ 1))

theorem mem_pyRangeStep {stop : ℤ} {s : ℕ} :
    s ∈ pyRangeStep stop 50 ↔ 50 ∣ s ∧ (s : ℤ) < stop := by
  unfold pyRangeStep
  rw [List.mem_map]
  constructor
  · rintro ⟨i, hi, rfl⟩
    rw [List.mem_range] at hi
    constructor
    · exact ⟨i, by ring⟩
    · have h1 : i * 50 < stop.toNat := by omega
      have h2 : (stop.toNat : ℤ) ≤ max stop 0 := by
        rcases le_total 0 stop with h | h
        · rw [Int.toNat_of_nonneg h]; exact le_max_left _ _
        · rw [Int.toNat_of_nonpos h]; exact le_max_right _ _
      have h3 : (0 : ℤ) < stop.toNat := by exact_mod_cast Nat.pos_of_ne_zero (by omega)
      have h4 : (stop.toNat : ℤ) = stop := by
        rcases le_total 0 stop with h | h
        · exact_mod_cast Int.toNat_of_nonneg h
        · exfalso; rw [Int.toNat_of_nonpos h] at h3; exact lt_irrefl 0 h3
      have : ((i * 50 : ℕ) : ℤ) < (stop.toNat : ℤ) := by exact_mod_cast h1
      rw [h4] at this
      exact this
  · rintro ⟨⟨i, rfl⟩, hlt⟩
    refine ⟨i, ?_, by ring⟩
    rw [List.mem_range]
    have h0 : (0 : ℤ) ≤ 50 * i := by positivity
    have h1 : (50 * i : ℤ) < stop := by exact_mod_cast hlt
    have h2 : 0 ≤ stop := le_of_lt (lt_of_le_of_lt h0 h1)
    have h3 : 50 * i < stop.toNat := by
      have := Int.toNat_of_nonneg h2
      omega
    omega

/-- Claim C4 counterexample: for a 100-row series with a uniform label,
the claim demands the flush window [0, 100) (start 0 is a multiple of
STEP_SIZE and 0 + WINDOW_SIZE ≤ 100, and the window is label-pure), but
train() iterates range(0, len(df) - WINDOW_SIZE, STEP_SIZE), which is
range(0, 0, 50) = [], so no window at all is produced. -/
theorem batch_windowing_cx :
    train_windows (List.replicate 100 (⟨0, 0, 0, 0⟩, 0)) = [] ∧
    0 % STEP_SIZE = 0 ∧ 0 + WINDOW_SIZE ≤ 100 ∧
    ((window_slice (List.replicate 100 ((⟨0, 0, 0, 0⟩ : MRow), (0 : ℤ))) 0).map
        (fun r => r.2)).dedup.length = 1 := by
  refine ⟨?_, rfl, by decide, ?_⟩
  · have h : train_starts (List.replicate 100 ((⟨0, 0, 0, 0⟩ : MRow), (0 : ℤ))).length = [] := by
      rw [List.length_replicate]
      rfl
    rw [train_windows, h]
    rfl
  · have h : (window_slice (List.replicate 100 ((⟨0, 0, 0, 0⟩ : MRow), (0 : ℤ))) 0).map
        (fun r => r.2) = List.replicate 100 (0 : ℤ) := by
      rw [window_slice, List.drop_zero, List.take_replicate, List.map_replicate]
      rfl
    rw [h]
    have hd : ∀ n : ℕ, (List.replicate (n + 1) (0 : ℤ)).dedup = [0] := by
      intro n
      induction n with
      | zero => rfl
      | succ m ih =>
        rw [List.replicate_succ, List.dedup_cons_of_mem (by simp)]
        rw [List.replicate_succ] at ih
        exact ih
    rw [show (100 : ℕ) = 99 + 1 from rfl, hd 99]
    rfl

/-- Claim C4 (amended): batch mode produces exactly the windows
[start, start + WINDOW_SIZE) for the start indices that are multiples of
STEP_SIZE with start + WINDOW_SIZE strictly below the series length
(so the flush window at start = L - WINDOW_SIZE is never produced),
minus the windows whose rows do not share exactly one label; in
particular a series of length ≤ WINDOW_SIZE produces no window. -/
theorem batch_windowing_amended (rows : List (MRow × ℤ)) :
    (∀ s : ℕ, s ∈ train_starts rows.length ↔
        50 ∣ s ∧ s + WINDOW_SIZE < rows.length) ∧
    (rows.length ≤ WINDOW_SIZE → train_windows rows = []) ∧
    (∀ (s : ℕ) (w : List (MRow × ℤ)), (s, w) ∈ train_windows rows ↔
        (50 ∣ s ∧ s + WINDOW_SIZE < rows.length ∧ w = window_slice rows s ∧
         (w.map (fun r => r.2)).dedup.length ≤ 1)) := by
  have hstarts : ∀ s : ℕ, s ∈ train_starts rows.length ↔
      50 ∣ s ∧ s + WINDOW_SIZE < rows.length := by
    intro s
    rw [train_starts, STEP_SIZE, mem_pyRangeStep, WINDOW_SIZE]
    constructor
    · rintro ⟨hd, hlt⟩
      exact ⟨hd, by omega⟩
    · rintro ⟨hd, hlt⟩
      exact ⟨hd, by omega⟩
  have hmem : ∀ (s : ℕ) (w : List (MRow × ℤ)), (s, w) ∈ train_windows rows ↔
      (50 ∣ s ∧ s + WINDOW_SIZE < rows.length ∧ w = window_slice rows s ∧
       (w.map (fun r => r.2)).dedup.length ≤ 1) := by
    intro s w
    rw [train_windows, List.mem_filter, List.mem_map]
    constructor
    · rintro ⟨⟨t, ht, heq⟩, hp⟩
      have hts : t = s := congrArg Prod.fst heq
      subst hts
      have hw : window_slice rows t = w := congrArg Prod.snd heq
      rcases (hstarts t).mp ht with ⟨hd, hlt⟩
      refine ⟨hd, hlt, hw.symm, ?_⟩
      rw [← hw] at hp
      rw [← hw]
      exact of_decide_eq_true hp
    · rintro ⟨hd, hlt, rfl, hp⟩
      exact ⟨⟨s, (hstarts s).mpr ⟨hd, hlt⟩, rfl⟩, decide_eq_true hp⟩
  refine ⟨hstarts, ?_, hmem⟩
  · intro hle
    rw [WINDOW_SIZE] at hle
    rw [train_windows]
    have : train_starts rows.length = [] := by
      rcases h : train_starts rows.length with _ | ⟨a, t⟩
      · rfl
      · exfalso
        have : a ∈ train_starts rows.length := by rw [h]; exact List.mem_cons_self a t
        rcases (hstarts a).mp this with ⟨-, hlt⟩
        rw [WINDOW_SIZE] at hlt
        omega
    rw [this]
    rfl

/-- Witness for C4: a 250-row uniformly-labelled series produces exactly
the starts 0, 50 and 100 (the flush start 150 is excluded), and a
100-row series produces nothing. -/
theorem batch_windowing_amended_w :
    (100 ∈ train_starts (List.replicate 250 ((⟨0, 0, 0, 0⟩ : MRow), (0 : ℤ))).length) ∧
    (150 ∉ train_starts (List.replicate 250 ((⟨0, 0, 0, 0⟩ : MRow), (0 : ℤ))).length) ∧
    train_windows (List.replicate 100 (⟨0, 0, 0, 0⟩, 1)) = [] := by
  have h := batch_windowing_amended (List.replicate 250 (⟨0, 0, 0, 0⟩, 0))
  have h2 := batch_windowing_amended (List.replicate 100 (⟨0, 0, 0, 0⟩, 1))
  refine ⟨(h.1 100).mpr ⟨⟨2, rfl⟩, ?_⟩, fun hc => ?_, h2.2.1 (by rw [List.length_replicate, WINDOW_SIZE])⟩
  · rw [List.length_replicate, WINDOW_SIZE]
    omega
  · rcases (h.1 150).mp hc with ⟨-, hlt⟩
    rw [List.length_replicate, WINDOW_SIZE] at hlt
    omega

/-! ### Serial-line ingestion (live_detector.py loop, data_logger.py) -/

/-- One comma-separated text field of a decoded serial line, abstracted
by the outcome of the Python numeric conversions applied to it:
asFloat is the result of float(field) (none models ValueError), asInt
the result of int(field). -/
structure SField where
  asFloat : Option ℚ
  asInt : Option ℤ
deriving DecidableEq

/-- float(parts[i]): indexing a parsed field and converting it. -/
def fieldFloat (line : List SField) (i : ℕ) : Option ℚ :=
  (line.get? i).bind SField.asFloat

/-- int(parts[i]). -/
def fieldInt (line : List SField) (i : ℕ) : Option ℤ :=
  (line.get? i).bind SField.asInt

/-- deque(maxlen=WINDOW_SIZE).append: the oldest entries are evicted
once the buffer exceeds the window size. -/
def dequePush (buf : List MRow) (r : MRow) : List MRow :=
  let b := buf ++ [r]
  if WINDOW_SIZE < b.length then b.drop (b.length - WINDOW_SIZE) else b

/-- One iteration of the live_detector.py read loop restricted to buffer
ingestion (lines 91-107).  A line is parsed only when it splits into
exactly 8 fields (the `line and len(line.split(',')) == 8` guard; a
string with 8 comma-separated fields is never empty, so the truthiness
test adds nothing); the row dict is built from float(parts[1..3]) and
int(parts[7]); any conversion failure raises ValueError, which the
enclosing `except Exception: pass` swallows, leaving the buffer exactly
as it was. -/
def live_ingest (buf : List MRow) (line : List SField) : List MRow :=
  if line.length = 8 then
    match fieldFloat line 1, fieldFloat line 2, fieldFloat line 3, fieldInt line 7 with
    | some ax, some ay, some az, some fr => dequePush buf ⟨ax, ay, az, (fr : ℚ)⟩
    | _, _, _, _ => buf
  else buf

/-- One iteration of the data_logger.py recording loop (lines 59-65):
a non-empty line with exactly 8 comma-separated fields is appended raw
(fields plus the session label) to the recording buffer; no field is
converted to a number at ingestion time. -/
def logger_ingest {L : Type} (buf : List (List SField × L)) (line : List SField)
    (label : L) : List (List SField × L) :=
  if line.length = 8 then buf ++ [(line, label)] else buf

/-- Claim C8: a serial line is accepted (appended to the live window
buffer or to the logger recording) only if it splits into exactly 8
comma-separated fields and every numerically consumed field parses
(live path: AccelX/Y/Z as float and FSR as int; logger path: no field is
numerically consumed at ingestion).  Any other line leaves the buffer
unchanged — rejected lines are dropped whole, never half-ingested, and
the swallowed exceptions mean the loop never crashes (both ingestion
steps are total functions). -/
theorem serial_ingestion (buf : List MRow) (line : List SField) :
    (live_ingest buf line ≠ buf →
       line.length = 8 ∧ fieldFloat line 1 ≠ none ∧ fieldFloat line 2 ≠ none ∧
       fieldFloat line 3 ≠ none ∧ fieldInt line 7 ≠ none) ∧
    (∀ ax ay az : ℚ, ∀ fi : ℤ, line.length = 8 →
       fieldFloat line 1 = some ax → fieldFloat line 2 = some ay →
       fieldFloat line 3 = some az → fieldInt line 7 = some fi →
       live_ingest buf line = dequePush buf ⟨ax, ay, az, (fi : ℚ)⟩) ∧
    ((line.length ≠ 8 ∨ fieldFloat line 1 = none ∨ fieldFloat line 2 = none ∨
       fieldFloat line 3 = none ∨ fieldInt line 7 = none) →
       live_ingest buf line = buf) ∧
    (∀ (bufL : List (List SField × ℤ)) (lab : ℤ),
       (logger_ingest bufL line lab ≠ bufL → line.length = 8) ∧
       (line.length ≠ 8 → logger_ingest bufL line lab = bufL)) := by
  refine ⟨?_, ?_, ?_, ?_⟩
  · intro hne
    by_cases h8 : line.length = 8
    · refine ⟨h8, ?_, ?_, ?_, ?_⟩ <;> intro hn <;> apply hne <;>
        rcases h1 : fieldFloat line 1 with - | a1 <;>
        rcases h2 : fieldFloat line 2 with - | a2 <;>
        rcases h3 : fieldFloat line 3 with - | a3 <;>
        rcases h7 : fieldInt line 7 with - | a7 <;>
        simp_all [live_ingest]
    · exact absurd (by simp [live_ingest, h8]) hne
  · intro ax ay az fi h8 h1 h2 h3 h7
    simp [live_ingest, h8, h1, h2, h3, h7]
  · rintro (h | h | h | h | h) <;> simp [live_ingest, h]
  · intro bufL lab
    constructor
    · intro hne
      by_cases h8 : line.length = 8
      · exact h8
      · exact absurd (by simp [logger_ingest, h8]) hne
    · intro h8
      simp [logger_ingest, h8]

/-- A well-formed 8-field numeric line for the C8 witness. -/
def line8 : List SField := List.replicate 8 ⟨some 1, some 1⟩

/-- Witness for C8: the well-formed line line8 is ingested whole into an
empty live buffer, and a 2-field line is rejected by both paths. -/
theorem serial_ingestion_w :
    live_ingest [] line8 = [⟨1, 1, 1, 1⟩] ∧
    live_ingest [] (List.replicate 2 ⟨some 1, some 1⟩) = [] ∧
    logger_ingest ([] : List (List SField × ℤ)) (List.replicate 2 ⟨some 1, some 1⟩) 0 = [] := by
  refine ⟨?_, ?_, ?_⟩
  · have h := (serial_ingestion [] line8).2.1 1 1 1 1 (by rfl)
      (by rfl) (by rfl) (by rfl) (by rfl)
    rw [h]
    rfl
  · exact (serial_ingestion [] (List.replicate 2 ⟨some 1, some 1⟩)).2.2.1
      (Or.inl (by simp))
  · exact ((serial_ingestion [] (List.replicate 2 ⟨some 1, some 1⟩)).2.2.2
      [] 0).2 (by simp)

/-! ### Voice feature extraction (api/server.py extract_voice_features,
voice tremor detection/live_voice_analysis.py extract_features) -/

/-- Jitter: mean absolute consecutive difference of the periods 1/F0,
divided by the mean period, times 100. -/
def jitter_pct (f0 : List ℚ) : ℚ :=
  let periods := f0.map (fun x => 1 / x)
  listMean ((np_diff periods).map (fun x => |x|)) / listMean periods * 100

/-- Shimmer: mean absolute consecutive RMS difference over mean RMS, x100. -/
def shimmer_pct (rms : List ℚ) : ℚ :=
  listMean ((np_diff rms).map (fun x => |x|)) / listMean rms * 100

/-- noise_energy = energy_total - energy_harmonic, replaced by the
epsilon 0.00001 whenever it is ≤ 0. -/
def noise_energy_floored (energy_total energy_harmonic : ℚ) : ℚ :=
  let noise := energy_total - energy_harmonic
  if noise ≤ 0 then 1 / 100000 else noise

/-- hnr = 10 * np.log10(energy_harmonic / noise_energy), with log10 an
abstract kernel. -/
def hnr_db (log10 : ℚ → ℚ) (energy_harmonic energy_total : ℚ) : ℚ :=
  10 * log10 (energy_harmonic / noise_energy_floored energy_total energy_harmonic)

/-- Finiteness model for the hnr computation: np.log10 x is a finite
float exactly when its argument is positive (log10 of 0 is -inf, of a
negative number nan), so hnr_db is finite iff the ratio fed to log10 is
positive. -/
def hnr_db_is_finite (energy_harmonic energy_total : ℚ) : Prop :=
  0 < energy_harmonic / noise_energy_floored energy_total energy_harmonic

/-- extract_features of live_voice_analysis.py.  The librosa kernels are
abstracted by their outputs: mfcc is np.mean of the 13-coefficient MFCC
matrix, f0_raw the pyin track with NaN frames as none, rms_raw the RMS
envelope, energy_harmonic / energy_total the harmonic and total signal
energies; log10 is the abstract log kernel.  Returns none ("not enough
tonal audio") on either length check. -/
def extract_features (log10 : ℚ → ℚ) (mfcc : ℚ) (f0_raw : List (Option ℚ))
    (rms_raw : List ℚ) (energy_harmonic energy_total : ℚ) : Option (List ℚ) :=
  let f0 := f0_raw.filterMap id
  if f0.length < 2 then none else
  let target_len := min rms_raw.length f0.length
  let rms := rms_raw.take target_len
  if rms.length < 2 then none else
  some [jitter_pct f0, shimmer_pct rms,
        hnr_db log10 energy_harmonic energy_total, mfcc]

/-- extract_voice_features of api/server.py: the same ported logic
(the api file only adds a try/except wrapper around these steps). -/
def extract_voice_features (log10 : ℚ → ℚ) (mfcc : ℚ) (f0_raw : List (Option ℚ))
    (rms_raw : List ℚ) (energy_harmonic energy_total : ℚ) : Option (List ℚ) :=
  let f0 := f0_raw.filterMap id
  if f0.length < 2 then none else
  let target_len := min rms_raw.length f0.length
  let rms := rms_raw.take target_len
  if rms.length < 2 then none else
  some [jitter_pct f0, shimmer_pct rms,
        hnr_db log10 energy_harmonic energy_total, mfcc]

/-- Claim C5: the voice extractor returns the failure signal exactly
when fewer than 2 voiced F0 estimates remain after NaN removal, or fewer
than 2 RMS values remain after truncation to the shared minimum length
of the RMS and F0 sequences; otherwise it returns the ordered 4-tuple
(jitter_pct, shimmer_pct, hnr_db, mfcc_mean).  Both source variants
implement the identical function. -/
theorem voice_failure_condition (log10 : ℚ → ℚ) (mfcc : ℚ) (f0_raw : List (Option ℚ))
    (rms_raw : List ℚ) (eh et : ℚ) :
    extract_voice_features log10 mfcc f0_raw rms_raw eh et =
      (if (f0_raw.filterMap id).length < 2 ∨
          min rms_raw.length (f0_raw.filterMap id).length < 2
       then none
       else some [jitter_pct (f0_raw.filterMap id),
                  shimmer_pct (rms_raw.take
                    (min rms_raw.length (f0_raw.filterMap id).length)),
                  hnr_db log10 eh et, mfcc]) ∧
    extract_voice_features log10 mfcc f0_raw rms_raw eh et =
      extract_features log10 mfcc f0_raw rms_raw eh et := by
  refine ⟨?_, rfl⟩
  simp only [extract_voice_features]
  by_cases h1 : (f0_raw.filterMap id).length < 2
  · rw [if_pos h1, if_pos (Or.inl h1)]
  · rw [if_neg h1, List.length_take]
    have hmm : min (min rms_raw.length (f0_raw.filterMap id).length) rms_raw.length
        = min rms_raw.length (f0_raw.filterMap id).length := by omega
    rw [hmm]
    by_cases h2 : min rms_raw.length (f0_raw.filterMap id).length < 2
    · rw [if_pos h2, if_pos (Or.inr h2)]
    · rw [if_neg h2, if_neg (by tauto)]

/-- Claim C9 counterexample: the floor guards only the denominator.
With harmonic energy exactly 0 and total energy 1 (a clip whose
harmonic-percussive decomposition leaves nothing harmonic), the floored
noise energy is 1 but the log10 argument is 0/1 = 0, and np.log10(0) is
-inf: hnr_db is not finite, refuting the unconditional finiteness
claimed for every clip passing the length checks. -/
theorem hnr_floor_cx :
    noise_energy_floored 1 0 = 1 ∧ ¬ hnr_db_is_finite 0 1 := by
  constructor
  · norm_num [noise_energy_floored]
  · norm_num [hnr_db_is_finite, noise_energy_floored]

/-- Claim C9 (amended): noise_energy = total - harmonic is replaced by
the epsilon 1e-5 exactly when it is ≤ 0, so the denominator fed to
log10 is always positive, and hnr_db is finite whenever the harmonic
energy is positive; a zero harmonic energy still yields log10 0 = -inf,
which the floor does not prevent. -/
theorem hnr_floor_amended (et eh : ℚ) :
    0 < noise_energy_floored et eh ∧
    (et - eh ≤ 0 → noise_energy_floored et eh = 1 / 100000) ∧
    (0 < et - eh → noise_energy_floored et eh = et - eh) ∧
    (0 < eh → hnr_db_is_finite eh et) ∧
    (∀ log10 : ℚ → ℚ, hnr_db log10 eh et
        = 10 * log10 (eh / noise_energy_floored et eh)) := by
  have hpos : 0 < noise_energy_floored et eh := by
    rw [noise_energy_floored]
    split_ifs with h
    · norm_num
    · linarith
  refine ⟨hpos, ?_, ?_, ?_, fun log10 => rfl⟩
  · intro h
    rw [noise_energy_floored]
    simp only [if_pos h]
  · intro h
    rw [noise_energy_floored]
    simp only [if_neg (by linarith : ¬ et - eh ≤ 0)]
  · intro h
    exact div_pos h hpos

/-- Witness for C9 at total energy 2, harmonic energy 1. -/
theorem hnr_floor_amended_w :
    0 < noise_energy_floored 2 1 ∧ hnr_db_is_finite 1 2 := by
  have h := hnr_floor_amended 2 1
  exact ⟨h.1, h.2.2.2.1 (by norm_num)⟩

/-! ### Voice classifier adapter (api/server.py module load + predict_audio,
live_voice_analysis.py analyze_voice) -/

/-- The trained speech classifier, abstracted by its predict and
predict_proba functions on 4-feature vectors. -/
structure SpeechModel where
  predict : List ℚ → ℤ
  predict_proba : List ℚ → List ℚ

/-- The trained feature scaler, abstracted by its transform. -/
structure SpeechScaler where
  transform : List ℚ → List ℚ

/-- Module-level load of api/server.py (lines 129-140).  Both loads run
sequentially inside one try: if the model file is absent nothing is
assigned; if joblib.load of the model raises, nothing is assigned; if
the model load succeeds but the scaler load raises (missing or corrupt
scaler file), speech_model is already assigned and speech_scaler stays
None — the except swallows the error and the process continues. -/
def load_speech_models (modelFileExists : Bool)
    (modelLoad : Except Unit SpeechModel) (scalerLoad : Except Unit SpeechScaler) :
    Option SpeechModel × Option SpeechScaler :=
  if modelFileExists then
    match modelLoad with
    | Except.error _ => (none, none)
    | Except.ok m =>
      match scalerLoad with
      | Except.error _ => (some m, none)
      | Except.ok s => (some m, some s)
  else (none, none)

/-- The predict_audio handler core (api/server.py lines 186-213), after
audio decoding: the `if not speech_model` guard, the feature-extraction
result, then speech_scaler.transform before speech_model.predict.  When
speech_scaler is None the .transform attribute access raises; the
handler's try/except converts that into a 500 error response, modelled
as Except.error. -/
def predict_audio_route (st : Option SpeechModel × Option SpeechScaler)
    (features : Option (List ℚ)) : Except String (String × ℚ) :=
  match st.1 with
  | none => Except.error "Voice model not loaded"
  | some m =>
    match features with
    | none => Except.error "Could not extract features"
    | some f =>
      match st.2 with
      | none => Except.error "NoneType has no attribute transform"
      | some s =>
        let feat_scaled := s.transform f
        let prediction := m.predict feat_scaled
        let confidence := list_max (m.predict_proba feat_scaled) * 100
        Except.ok (if prediction = 1 then "Tremor" else "Healthy", confidence)

/-- analyze_voice loading in live_voice_analysis.py (lines 55-62): model
and scaler are loaded inside the same try and the function returns on
failure, so either both locals exist or the function aborts. -/
def analyze_voice_load (modelLoad : Except Unit SpeechModel)
    (scalerLoad : Except Unit SpeechScaler) : Option (SpeechModel × SpeechScaler) :=
  match modelLoad with
  | Except.error _ => none
  | Except.ok m =>
    match scalerLoad with
    | Except.error _ => none
    | Except.ok s => some (m, s)

/-- The per-recording analysis step of analyze_voice: extraction failure
prints and continues; otherwise the features are scaled and classified. -/
def analyze_voice_route (p : SpeechModel × SpeechScaler)
    (features : Option (List ℚ)) : Option (ℤ × ℚ) :=
  match features with
  | none => none
  | some f =>
    let feat_scaled := p.2.transform f
    some (p.1.predict feat_scaled, list_max (p.1.predict_proba feat_scaled) * 100)

/-- A trivial concrete model and scaler for counterexample/witness use. -/
def m0 : SpeechModel := ⟨fun _ => 1, fun _ => [1]⟩

def s0 : SpeechScaler := ⟨fun f => f⟩

/-- Claim C6 counterexample: the both-or-neither invariant fails in the
API adapter.  When the model file exists and loads but the scaler load
raises (e.g. speech_scaler.pkl missing), the reachable module state has
the model loaded and the scaler absent. -/
theorem scaler_unit_cx :
    (load_speech_models true (Except.ok m0) (Except.error ())).1.isSome = true ∧
    (load_speech_models true (Except.ok m0) (Except.error ())).2.isSome = false := by
  exact ⟨rfl, rfl⟩

/-- Claim C6 (amended): both call sites apply the training-time scaler
transform to the feature vector before invoking the model, and a
successful prediction is only ever produced from a state holding both
model and scaler; the live loader enforces both-or-neither, while the
API loader can reach the state (model loaded, scaler missing) — exactly
when the scaler load fails after a successful model load — and in that
state predict_audio always returns an error, never an unscaled
prediction. -/
theorem scaler_unit_amended (st : Option SpeechModel × Option SpeechScaler)
    (features : Option (List ℚ)) :
    (∀ v, predict_audio_route st features = Except.ok v →
        ∃ m s f, st = (some m, some s) ∧ features = some f ∧
          v = (if m.predict (s.transform f) = 1 then "Tremor" else "Healthy",
               list_max (m.predict_proba (s.transform f)) * 100)) ∧
    (st.2 = none → (predict_audio_route st features).toOption = none) ∧
    (∀ (mf : Bool) (ml : Except Unit SpeechModel) (sl : Except Unit SpeechScaler),
        (load_speech_models mf ml sl).1.isSome = true →
        (load_speech_models mf ml sl).2 = none →
        mf = true ∧ (∃ m, ml = Except.ok m) ∧ ∃ e, sl = Except.error e) ∧
    (∀ (ml : Except Unit SpeechModel) (sl : Except Unit SpeechScaler)
        (p : SpeechModel × SpeechScaler),
        analyze_voice_load ml sl = some p → ml = Except.ok p.1 ∧ sl = Except.ok p.2) ∧
    (∀ (p : SpeechModel × SpeechScaler) (f : List ℚ),
        analyze_voice_route p (some f) =
          some (p.1.predict (p.2.transform f),
                list_max (p.1.predict_proba (p.2.transform f)) * 100)) := by
  refine ⟨?_, ?_, ?_, ?_, fun p f => rfl⟩
  · intro v hv
    rcases st with ⟨m?, s?⟩
    rcases m? with - | m
    · exact absurd hv (by simp [predict_audio_route])
    rcases features with - | f
    · exact absurd hv (by simp [predict_audio_route])
    rcases s? with - | s
    · exact absurd hv (by simp [predict_audio_route])
    refine ⟨m, s, f, rfl, rfl, ?_⟩
    simp only [predict_audio_route] at hv
    exact (Except.ok.injEq _ _ ▸ hv).symm
  · intro hs
    rcases st with ⟨m?, s?⟩
    rcases m? with - | m
    · rfl
    rcases features with - | f
    · rfl
    rcases s? with - | s
    · rfl
    · exact absurd hs (by simp)
  · intro mf ml sl h1 h2
    rcases mf with - | -
    · exact absurd h1 (by simp [load_speech_models])
    rcases ml with e | m
    · exact absurd h1 (by simp [load_speech_models])
    rcases sl with e | s
    · exact ⟨rfl, ⟨m, rfl⟩, ⟨e, rfl⟩⟩
    · exact absurd h2 (by simp [load_speech_models])
  · intro ml sl p hp
    rcases ml with e | m
    · exact absurd hp (by simp [analyze_voice_load])
    rcases sl with e | s
    · exact absurd hp (by simp [analyze_voice_load])
    · simp only [analyze_voice_load, Option.some.injEq] at hp
      subst hp
      exact ⟨rfl, rfl⟩

/-- Witness for C6: with both artifacts loaded, a prediction is reached
and errors are impossible only through the scaled path; with the scaler
missing, the route yields no successful prediction. -/
theorem scaler_unit_amended_w :
    (predict_audio_route (some m0, none) (some [1, 2, 3, 4])).toOption = none ∧
    analyze_voice_route (m0, s0) (some [1, 2, 3, 4]) =
      some (m0.predict (s0.transform [1, 2, 3, 4]),
            list_max (m0.predict_proba (s0.transform [1, 2, 3, 4])) * 100) := by
  refine ⟨(scaler_unit_amended (some m0, none) (some [1, 2, 3, 4])).2.1 rfl, ?_⟩
  exact (scaler_unit_amended (some m0, some s0) (some [1, 2, 3, 4])).2.2.2.2 (m0, s0) [1, 2, 3, 4]

end NeuroDetect
